import Mathlib

/-!
Verification of the spec-driven-development workflow server: a shallow
embedding of its workflow state machine, document validators, traceability
checker and recovery/snapshot subsystem, with theorems checking the
natural-language specification against it.

The Python implementation modules (`workflow/phase_manager.py`,
`workflow/state_tracker.py`, `validation/*.py`, `recovery_manager.py`) are not
present in the source tree; only their test suites are.  Every definition
below is therefore modelled from the specification document, and each doc
comment records what is being modelled.
-/

namespace SpecDriven

/-- Modelled from the spec: the three sequential phases of the methodology
(`PhaseType` in `workflow/models.py`). -/
inductive PhaseType where
  | requirements
  | design
  | tasks
deriving DecidableEq, Repr

/-- Modelled from the spec: per-phase lifecycle status (`PhaseStatus` in
`workflow/models.py`); transitions NotStarted → InProgress → Review →
Approved. -/
inductive PhaseStatus where
  | notStarted
  | inProgress
  | review
  | approved
deriving DecidableEq, Repr

/-- Position of a phase in the Requirements → Design → Tasks sequence. -/
def phaseIdx : PhaseType → Nat
  | .requirements => 0
  | .design => 1
  | .tasks => 2

/-- The phase after `p` in the sequence (Tasks, the last phase, is mapped to
itself; `approvePhase` never uses that value). -/
def nextAfter : PhaseType → PhaseType
  | .requirements => .design
  | .design => .tasks
  | .tasks => .tasks

/-- The phase before `p`, used by `startPhase`'s approval gate. -/
def prevBefore : PhaseType → PhaseType
  | .requirements => .requirements
  | .design => .requirements
  | .tasks => .design

/-- Modelled from the spec: `WorkflowState` (`workflow/models.py`) — one per
feature name, with the current phase, one status per phase, and the two
derived booleans.  The `last_updated` timestamp carries no logic and is
omitted. -/
structure WorkflowState where
  featureName : String
  currentPhase : PhaseType
  reqStatus : PhaseStatus
  designStatus : PhaseStatus
  tasksStatus : PhaseStatus
  canProceed : Bool
  requiresApproval : Bool
deriving DecidableEq, Repr

/-- The status of phase `p` in workflow `w`. -/
def statusOf (w : WorkflowState) : PhaseType → PhaseStatus
  | .requirements => w.reqStatus
  | .design => w.designStatus
  | .tasks => w.tasksStatus

/-- Replace the status of phase `p` in `w` by `s`. -/
def setStatus (w : WorkflowState) (p : PhaseType) (s : PhaseStatus) : WorkflowState :=
  match p with
  | .requirements => { w with reqStatus := s }
  | .design => { w with designStatus := s }
  | .tasks => { w with tasksStatus := s }

/-- Modelled from the spec: the state machine's typed failures
(`InvalidTransition`, `UnknownWorkflow`). -/
inductive WorkflowErr where
  | invalidTransition
  | unknownWorkflow
deriving DecidableEq, Repr

/-- Modelled from the spec: `create_workflow(name)` — all three phases
NotStarted, current phase Requirements, `can_proceed=false`,
`requires_approval=true`. -/
def createWorkflow (name : String) : WorkflowState :=
  { featureName := name
    currentPhase := .requirements
    reqStatus := .notStarted
    designStatus := .notStarted
    tasksStatus := .notStarted
    canProceed := false
    requiresApproval := true }

/-- Modelled from the spec: `start_phase(phase)` — legal only if the phase is
NotStarted and (it is Requirements or the previous phase is Approved); sets
the phase InProgress, `can_proceed=false`, `requires_approval=true`;
`InvalidTransition` otherwise. -/
def startPhase (w : WorkflowState) (p : PhaseType) : Except WorkflowErr WorkflowState :=
  if statusOf w p = .notStarted ∧ (p = .requirements ∨ statusOf w (prevBefore p) = .approved) then
    .ok { setStatus w p .inProgress with
            currentPhase := p, canProceed := false, requiresApproval := true }
  else
    .error .invalidTransition

/-- Modelled from the spec: `complete_phase(phase)` — legal only if the phase
is InProgress; sets it Review, `can_proceed=false`, `requires_approval=true`;
`InvalidTransition` otherwise. -/
def completePhase (w : WorkflowState) (p : PhaseType) : Except WorkflowErr WorkflowState :=
  if statusOf w p = .inProgress then
    .ok { setStatus w p .review with canProceed := false, requiresApproval := true }
  else
    .error .invalidTransition

/-- Modelled from the spec: `approve_phase(phase)` — legal only if the phase
is Review; sets it Approved.  For a non-last phase it advances
`current_phase` to the next phase (whose own status it does not touch) and
sets `can_proceed=true`, `requires_approval=false`; for the last phase
(Tasks) it keeps `current_phase` and sets `can_proceed=false`,
`requires_approval=false`.  `InvalidTransition` otherwise. -/
def approvePhase (w : WorkflowState) (p : PhaseType) : Except WorkflowErr WorkflowState :=
  if statusOf w p = .review then
    if p = .tasks then
      .ok { setStatus w p .approved with canProceed := false, requiresApproval := false }
    else
      .ok { setStatus w p .approved with
              currentPhase := nextAfter p, canProceed := true, requiresApproval := false }
  else
    .error .invalidTransition

/-- Modelled from the spec: `can_transition_to(phase)` as a pure predicate on
a workflow — Requirements always allowed, Design needs Requirements
Approved, Tasks needs Requirements and Design Approved. -/
def canTransitionTo (w : WorkflowState) : PhaseType → Bool
  | .requirements => true
  | .design => statusOf w .requirements = .approved
  | .tasks => statusOf w .requirements = .approved ∧ statusOf w .design = .approved

/-- A phase status that awaits a decision (InProgress or Review). -/
def isActive : PhaseStatus → Bool
  | .inProgress => true
  | .review => true
  | _ => false

/-- Some phase of `w` is InProgress or Review. -/
def anyActive (w : WorkflowState) : Bool :=
  isActive w.reqStatus || isActive w.designStatus || isActive w.tasksStatus

/-- States reachable through the phase manager's mutating operations
(`create_workflow`, `start_phase`, `complete_phase`, `approve_phase`). -/
inductive Reachable : WorkflowState → Prop where
  | create (name : String) : Reachable (createWorkflow name)
  | start {w w' : WorkflowState} {p : PhaseType} :
      Reachable w → startPhase w p = .ok w' → Reachable w'
  | complete {w w' : WorkflowState} {p : PhaseType} :
      Reachable w → completePhase w p = .ok w' → Reachable w'
  | approve {w w' : WorkflowState} {p : PhaseType} :
      Reachable w → approvePhase w p = .ok w' → Reachable w'

/-- The structural invariant carried through the reachability induction:
phase ordering (a later phase only leaves NotStarted once the earlier one is
Approved), `requires_approval=false` only in quiescent states, and a
completed workflow no longer requires approval. -/
def WfInv (w : WorkflowState) : Prop :=
  (w.designStatus ≠ .notStarted → w.reqStatus = .approved) ∧
  (w.tasksStatus ≠ .notStarted → w.designStatus = .approved) ∧
  (w.requiresApproval = false → anyActive w = false) ∧
  (w.tasksStatus = .approved → w.requiresApproval = false)

/-! ## The per-feature workflow store (PhaseManager / StateTracker) -/

/-- The process-wide mapping from feature name to tracked workflow state,
shared shape of `PhaseManager._workflows` and `StateTracker._workflows`. -/
def WfStore := List (String × WorkflowState)

/-- Look a feature name up in the store. -/
def lookupWf : WfStore → String → Option WorkflowState
  | [], _ => none
  | (k, w) :: rest, name => if k = name then some w else lookupWf rest name

/-- Replace (or append) the entry for a feature name. -/
def updateWf : WfStore → String → WorkflowState → WfStore
  | [], name, w => [(name, w)]
  | (k, v) :: rest, name, w =>
      if k = name then (k, w) :: rest else (k, v) :: updateWf rest name w

/-- Modelled from the spec: `get_workflow(name)` — `None` when the feature is
not tracked. -/
def getWorkflow (t : WfStore) (name : String) : Option WorkflowState :=
  lookupWf t name

/-- Modelled from the spec: `StateTracker.get_current_phase` — `None` for an
untracked feature. -/
def getCurrentPhase (t : WfStore) (name : String) : Option PhaseType :=
  (lookupWf t name).map (·.currentPhase)

/-- Number of Approved phases of a workflow. -/
def approvedCount (w : WorkflowState) : Nat :=
  (if w.reqStatus = .approved then 1 else 0) +
  (if w.designStatus = .approved then 1 else 0) +
  (if w.tasksStatus = .approved then 1 else 0)

/-- Modelled from the spec: `get_completion_percentage` — Approved count over
three; `0.0` for an untracked feature. -/
def getCompletionPercentage (t : WfStore) (name : String) : ℚ :=
  match lookupWf t name with
  | none => 0
  | some w => (approvedCount w : ℚ) / 3

/-- Modelled from the spec: `is_workflow_complete` — all three phases
Approved; `false` for an untracked feature. -/
def isWorkflowComplete (t : WfStore) (name : String) : Bool :=
  match lookupWf t name with
  | none => false
  | some w =>
      w.reqStatus = .approved ∧ w.designStatus = .approved ∧ w.tasksStatus = .approved

/-- Modelled from the spec: `requires_user_approval` — the tracked workflow's
`requires_approval` flag; `false` for an untracked feature. -/
def requiresUserApproval (t : WfStore) (name : String) : Bool :=
  match lookupWf t name with
  | none => false
  | some w => w.requiresApproval

/-- Modelled from the spec: `can_proceed_to_next_phase` — the tracked
workflow's `can_proceed` flag; `false` for an untracked feature. -/
def canProceedToNextPhase (t : WfStore) (name : String) : Bool :=
  match lookupWf t name with
  | none => false
  | some w => w.canProceed

/-- Modelled from the spec: `can_transition_to_phase(name, phase)` at the
manager level — `false` for an untracked feature, otherwise the pure
predicate `canTransitionTo`. -/
def canTransitionToPhase (t : WfStore) (name : String) (p : PhaseType) : Bool :=
  match lookupWf t name with
  | none => false
  | some w => canTransitionTo w p

/-- Modelled from the spec: `can_navigate_backward(target)` on one workflow —
Requirements is always a legal target, Design only from Tasks; Tasks is
never a backward target. -/
def canNavBack (w : WorkflowState) : PhaseType → Bool
  | .requirements => true
  | .design => w.currentPhase = .tasks
  | .tasks => false

/-- On successful backward navigation: current phase becomes the target, the
target is reset to InProgress, and every phase strictly after the target is
reset to NotStarted; phases strictly before the target are untouched. -/
def applyNavBack (w : WorkflowState) (target : PhaseType) : WorkflowState :=
  let w1 := { setStatus w target .inProgress with currentPhase := target }
  match target with
  | .requirements => { w1 with designStatus := .notStarted, tasksStatus := .notStarted }
  | .design => { w1 with tasksStatus := .notStarted }
  | .tasks => w1

/-- Modelled from the spec: `navigate_backward(name, target)` — returns
`false` (store unchanged) for an untracked feature or an illegal target,
otherwise stores the cascaded reset and returns `true`. -/
def navigateBackward (t : WfStore) (name : String) (target : PhaseType) :
    Bool × WfStore :=
  match lookupWf t name with
  | none => (false, t)
  | some w =>
      if canNavBack w target then
        (true, updateWf t name (applyNavBack w target))
      else
        (false, t)

/-! ## Recovery / snapshot subsystem -/

/-- Modelled from the spec: `StateSnapshot` — a deep copy of the workflow's
current phase and phase statuses with a metadata marker and a timestamp.
Metadata is modelled by its integer marker (the tests' `iteration` value)
and the timestamp by a logical clock. -/
structure StateSnapshot where
  featureName : String
  currentPhase : PhaseType
  reqS : PhaseStatus
  designS : PhaseStatus
  tasksS : PhaseStatus
  metadata : Nat
  timestamp : Nat
deriving DecidableEq, Repr

/-- Modelled from the spec: the `RecoveryManager`'s state — the in-memory
per-feature snapshot lists (capped at 10) and the per-feature durable
directory, modelled as the list of snapshot records written to disk (one
file per snapshot, never evicted).  `clock` stamps timestamps. -/
structure RecoveryManager where
  snaps : List (String × List StateSnapshot)
  disk : List (String × List StateSnapshot)
  clock : Nat

/-- The freshly created recovery manager: no snapshots anywhere. -/
def RecoveryManager.empty : RecoveryManager := ⟨[], [], 0⟩

/-- Look up a feature's list in a per-feature map, defaulting to `[]`. -/
def lookupSnaps : List (String × List StateSnapshot) → String → List StateSnapshot
  | [], _ => []
  | (k, l) :: rest, name => if k = name then l else lookupSnaps rest name

/-- Replace (or append) a feature's list in a per-feature map. -/
def updateSnaps :
    List (String × List StateSnapshot) → String → List StateSnapshot →
      List (String × List StateSnapshot)
  | [], name, l => [(name, l)]
  | (k, v) :: rest, name, l =>
      if k = name then (k, l) :: rest else (k, v) :: updateSnaps rest name l

/-- The last `n` elements of a list (the in-memory retention policy). -/
def takeLast (n : Nat) (l : List StateSnapshot) : List StateSnapshot :=
  l.drop (l.length - n)

/-- The snapshot record `create_state_snapshot` builds from a workflow. -/
def mkSnapshot (w : WorkflowState) (metadata clock : Nat) : StateSnapshot :=
  { featureName := w.featureName
    currentPhase := w.currentPhase
    reqS := w.reqStatus
    designS := w.designStatus
    tasksS := w.tasksStatus
    metadata := metadata
    timestamp := clock }

/-- Modelled from the spec: `create_state_snapshot(workflow, metadata)` —
deep-copies phase statuses and current phase, stamps the timestamp, appends
to the in-memory list capped at the 10 most recent entries (oldest evicted
from memory only), and synchronously writes one record to the feature's
durable directory, independent of the in-memory cap. -/
def createStateSnapshot (m : RecoveryManager) (w : WorkflowState) (metadata : Nat) :
    StateSnapshot × RecoveryManager :=
  let s := mkSnapshot w metadata m.clock
  let mem := lookupSnaps m.snaps w.featureName
  let memNew := takeLast 10 (mem ++ [s])
  let dsk := lookupSnaps m.disk w.featureName
  (s, { snaps := updateSnaps m.snaps w.featureName memNew
        disk := updateSnaps m.disk w.featureName (dsk ++ [s])
        clock := m.clock + 1 })

/-- The in-memory snapshot list the manager holds for a feature. -/
def memSnaps (m : RecoveryManager) (name : String) : List StateSnapshot :=
  lookupSnaps m.snaps name

/-- The durable snapshot files the manager has written for a feature. -/
def diskSnaps (m : RecoveryManager) (name : String) : List StateSnapshot :=
  lookupSnaps m.disk name

/-- Modelled from the spec: the `StateError` failures of
`rollback_to_snapshot`: empty history ("No state snapshots available") and
out-of-range index ("Invalid snapshot index"). -/
inductive StateErr where
  | noSnapshots
  | invalidIndex
deriving DecidableEq, Repr

/-- Modelled from the spec: `rollback_to_snapshot(feature, index)` — the
index uses Python-style negative indexing into the in-memory list
(most-recent = `-1`); empty history or an out-of-range index fails with a
`StateError`.  It returns the selected snapshot and, being a pure query,
leaves the live `WorkflowState` and the manager untouched. -/
def rollbackToSnapshot (m : RecoveryManager) (name : String) (idx : Int) :
    Except StateErr StateSnapshot :=
  let l := memSnaps m name
  if l.isEmpty then
    .error .noSnapshots
  else
    let i : Int := if idx < 0 then idx + l.length else idx
    if i < 0 then
      .error .invalidIndex
    else
      match l.get? i.toNat with
      | some s => .ok s
      | none => .error .invalidIndex

/-- `N` successive `create_state_snapshot` calls for the same workflow,
marking the `i`-th call with metadata `i` (the tests' iteration marker). -/
def iterCreate (w : WorkflowState) : Nat → RecoveryManager
  | 0 => RecoveryManager.empty
  | n + 1 => (createStateSnapshot (iterCreate w n) w n).2

/-! ## String utilities for the validators (over `List Char`) -/

/-- ASCII lower-casing of one character. -/
def lcChar (c : Char) : Char :=
  if 65 ≤ c.toNat ∧ c.toNat ≤ 90 then Char.ofNat (c.toNat + 32) else c

/-- ASCII lower-casing of a character list. -/
def lcStr (l : List Char) : List Char := l.map lcChar

/-- Whitespace characters recognised by trimming and blank detection
(space, tab, newline, carriage return, by code point). -/
def isWs (c : Char) : Bool :=
  c.toNat = 32 || c.toNat = 9 || c.toNat = 10 || c.toNat = 13

/-- Drop leading whitespace. -/
def trimL (l : List Char) : List Char := l.dropWhile isWs

/-- Drop trailing whitespace. -/
def trimR (l : List Char) : List Char := (l.reverse.dropWhile isWs).reverse

/-- Trim whitespace on both ends. -/
def trimB (l : List Char) : List Char := trimR (trimL l)

/-- An empty-or-whitespace-only document. -/
def isBlank (l : List Char) : Bool := l.all isWs

/-- `startsWithL pat l`: `pat` is an initial segment of `l`. -/
def startsWithL : List Char → List Char → Bool
  | [], _ => true
  | _ :: _, [] => false
  | p :: ps, c :: cs => p = c && startsWithL ps cs

/-- `containsSub pat l`: `pat` occurs contiguously somewhere in `l`. -/
def containsSub (pat : List Char) : List Char → Bool
  | [] => startsWithL pat []
  | c :: cs => startsWithL pat (c :: cs) || containsSub pat cs

/-- Split a character list into lines at newline characters. -/
def splitLines : List Char → List (List Char)
  | [] => [[]]
  | c :: cs =>
      if c = '\n' then [] :: splitLines cs
      else
        match splitLines cs with
        | [] => [[c]]
        | l :: ls => (c :: l) :: ls

/-- Split a character list at commas (for reference footers). -/
def splitCommas : List Char → List (List Char)
  | [] => [[]]
  | c :: cs =>
      if c = ',' then [] :: splitCommas cs
      else
        match splitCommas cs with
        | [] => [[c]]
        | l :: ls => (c :: l) :: ls

/-- Decimal digit test. -/
def isDigitCh (c : Char) : Bool := 48 ≤ c.toNat && c.toNat ≤ 57

/-- Parse a non-empty all-digit character list as a natural number. -/
def parseNatL (l : List Char) : Option Nat :=
  if l ≠ [] && l.all isDigitCh then
    some (l.foldl (fun acc c => acc * 10 + (c.toNat - 48)) 0)
  else
    none

/-! ## Validation results -/

/-- Result severity: error, warning, or info. -/
inductive RType where
  | error
  | warning
  | info
deriving DecidableEq, Repr

/-- Modelled from the spec: `ValidationResult` — type, message and a section
location, ordered by position in the returned list. -/
structure ValidationResult where
  rtype : RType
  message : String
  location : String
deriving DecidableEq, Repr

/-- Shorthand constructors for results. -/
def vErr (msg loc : String) : ValidationResult := ⟨.error, msg, loc⟩

def vWarn (msg loc : String) : ValidationResult := ⟨.warning, msg, loc⟩

def vInfo (msg loc : String) : ValidationResult := ⟨.info, msg, loc⟩

/-- Number of error results in a list. -/
def countErrors (rs : List ValidationResult) : Nat :=
  (rs.filter (fun r => r.rtype = .error)).length

/-- Number of warning results in a list. -/
def countWarnings (rs : List ValidationResult) : Nat :=
  (rs.filter (fun r => r.rtype = .warning)).length

/-- Modelled from the spec: the `ValidationError` raised for an empty/blank
document (document type plus message). -/
structure ValidationError where
  documentType : String
  message : String
deriving DecidableEq, Repr

/-! ## The EARS acceptance-criteria grammar engine -/

/-- The EARS trigger keywords, lower-cased. -/
def earsKeywords : List (List Char) :=
  ["when".data, "if".data, "while".data, "where".data]

/-- Case-insensitive test for a leading EARS keyword followed by a space.
AND/OR/NOT later in the trigger clause play no role in this test. -/
def hasEarsKeyword (c : List Char) : Bool :=
  earsKeywords.any (fun k => startsWithL (k ++ [' ']) (lcStr (trimL c)))

/-- Case-insensitive test for the word SHALL anywhere in the criterion. -/
def hasShall (c : List Char) : Bool :=
  containsSub "shall".data (lcStr c)

/-- Outcome of matching one criterion against the EARS grammar. -/
inductive EarsVerdict where
  | ok
  | missingShall
  | notEars
deriving DecidableEq, Repr

/-- Modelled from the spec: one acceptance criterion matched case-insensitively
against the EARS grammar — a leading keyword from WHEN/IF/WHILE/WHERE, and
SHALL somewhere after; keyword present but SHALL missing → `missingShall`;
no recognised leading keyword → `notEars`. -/
def earsVerdict (c : List Char) : EarsVerdict :=
  if hasEarsKeyword c then
    if hasShall c then .ok else .missingShall
  else
    .notEars

/-- The validation results one criterion contributes for its EARS check. -/
def earsResults (c : List Char) : List ValidationResult :=
  match earsVerdict c with
  | .ok => []
  | .missingShall =>
      [vErr ("Acceptance criterion is missing \"SHALL\": " ++ String.mk c)
        "Acceptance Criteria"]
  | .notEars =>
      [vErr ("Acceptance criterion does not follow EARS format: " ++ String.mk c)
        "Acceptance Criteria"]

/-- The fixed vague-term list scanned in criteria and task details. -/
def vagueTerms : List (List Char) :=
  ["fast".data, "efficient".data, "user-friendly".data, "properly".data,
   "appropriately".data, "quickly".data]

/-- One warning per vague-term occurrence in a criterion that matched the
EARS grammar (the scan applies only to grammar-matching criteria). -/
def vagueResults (c : List Char) : List ValidationResult :=
  if earsVerdict c = .ok then
    (vagueTerms.filter (fun t => containsSub t (lcStr c))).map
      (fun t => vWarn ("Acceptance criterion contains vague term \"" ++
        String.mk t ++ "\"") "Acceptance Criteria")
  else
    []

/-! ## Requirements document parsing and validation -/

/-- Parse a `### Requirement N` heading line to its number. -/
def reqHeadingNum (ln : List Char) : Option Nat :=
  let t := trimB ln
  if startsWithL "### Requirement ".data t then
    parseNatL (trimB (t.drop 16))
  else
    none

/-- Parsed requirement entry: heading number, the `**User Story:**` line when
present, and the numbered acceptance-criteria lines with their list prefix
stripped (`RequirementSection` in `validation/requirements_validator.py`). -/
structure ReqSection where
  number : Nat
  userStory : Option (List Char)
  criteria : List (List Char)
deriving DecidableEq, Repr

/-- A numbered-list line (`N. text`) inside a requirement block is an
acceptance criterion; this strips the list prefix. -/
def criterionContent (ln : List Char) : Option (List Char) :=
  let t := trimL ln
  let digits := t.takeWhile isDigitCh
  let rest := t.drop digits.length
  if digits ≠ [] && startsWithL ". ".data rest then
    some (rest.drop 2)
  else
    none

/-- Group the document's lines under their `### Requirement N` headings,
left-to-right (lines before the first heading belong to no requirement). -/
def groupReqLines (lines : List (List Char)) : List (Nat × List (List Char)) :=
  (lines.foldl
    (fun acc ln =>
      match reqHeadingNum ln with
      | some n => (n, ([] : List (List Char))) :: acc
      | none =>
          match acc with
          | [] => []
          | (n, body) :: rest => (n, body ++ [ln]) :: rest)
    []).reverse

/-- Build a `ReqSection` from one heading's grouped body lines. -/
def mkReqSection (n : Nat) (body : List (List Char)) : ReqSection :=
  { number := n
    userStory := body.find? (fun ln => containsSub "**User Story:**".data ln)
    criteria := body.filterMap criterionContent }

/-- Parse all requirement entries of a requirements document. -/
def parseRequirements (lines : List (List Char)) : List ReqSection :=
  (groupReqLines lines).map (fun g => mkReqSection g.1 g.2)

/-- The user-story format rule: the story line must contain the case-sensitive
anchors `As a`, `I want` and `so that`. -/
def storyWellFormed (s : List Char) : Bool :=
  containsSub "As a ".data s && containsSub "I want ".data s &&
    containsSub "so that ".data s

/-- The generic-role rule: the role token after `As a` is literally `user`
(case-insensitive). -/
def storyGenericRole (s : List Char) : Bool :=
  containsSub "as a user,".data (lcStr s)

/-- Validation results for one requirement entry: user-story presence and
format, generic-role warning, criteria presence, and per-criterion EARS and
vague-term checks. -/
def reqSectionResults (r : ReqSection) : List ValidationResult :=
  let loc := "Requirement " ++ toString r.number
  let storyRes :=
    match r.userStory with
    | none => [vErr ("Requirement " ++ toString r.number ++ " is missing a user story") loc]
    | some s =>
        if storyWellFormed s then
          if storyGenericRole s then
            [vWarn ("User story uses generic \"user\" role") loc]
          else []
        else
          [vErr ("User story does not follow the required format") loc]
  let critRes :=
    if r.criteria = [] then
      [vErr ("Requirement " ++ toString r.number ++ " has no acceptance criteria") loc]
    else
      r.criteria.flatMap (fun c => earsResults c ++ vagueResults c)
  storyRes ++ critRes

/-- Numbering results: requirement numbers must be sequential from 1 with no
gaps (a "numbering error" at each position out of sequence) and no number
may repeat (a "duplicate requirement number" error per repeat). -/
def numberingResults (nums : List Nat) : List ValidationResult :=
  let seqErrs :=
    (nums.enum.filter (fun p => p.2 ≠ p.1 + 1)).map
      (fun p => vErr ("Requirement numbering error: expected " ++ toString (p.1 + 1) ++
        " but found " ++ toString p.2) "Requirements")
  let dupErrs :=
    (nums.enum.filter (fun p => (nums.take p.1).contains p.2)).map
      (fun p => vErr ("Duplicate requirement number " ++ toString p.2) "Requirements")
  seqErrs ++ dupErrs

/-- The requirements validator's rule pipeline on a non-blank document:
title, Introduction, Requirements section with at least one entry, then the
per-requirement and numbering rules. -/
def requirementsRules (content : List Char) : List ValidationResult :=
  let lines := splitLines content
  let reqs := parseRequirements lines
  let titleRes :=
    if lines.any (fun l => startsWithL "# ".data l) then []
    else [vErr "Document is missing a title" "Document"]
  let introRes :=
    if lines.any (fun l => trimB l = "## Introduction".data) then []
    else [vErr "Document is missing an Introduction section" "Document"]
  let reqsRes :=
    if lines.any (fun l => trimB l = "## Requirements".data) && reqs ≠ [] then []
    else [vErr "Document is missing a Requirements section with requirement entries" "Document"]
  titleRes ++ introRes ++ reqsRes ++ reqs.flatMap reqSectionResults ++
    numberingResults (reqs.map (·.number))

/-- Modelled from the spec: `RequirementsValidator.validate(content)` — an
empty/blank document is the one input that fails with a `ValidationError`;
every other input yields the ordered result list of the rule pipeline. -/
def validateRequirementsDoc (content : String) :
    Except ValidationError (List ValidationResult) :=
  if isBlank content.data then
    .error ⟨"requirements", "Document is empty"⟩
  else
    .ok (requirementsRules content.data)

/-! ## Requirement-reference extraction and the traceability checker -/

/-- Extract the comma-separated tokens of one `_Requirements: ..._` footer
line, trimmed, or `none` when the line is not a footer. -/
def refFooterTokens (ln : List Char) : Option (List (List Char)) :=
  let t := trimB ln
  let t := if startsWithL "- ".data t then t.drop 2 else t
  if startsWithL "_Requirements:".data t && t.getLast? = some '_' then
    let inner := (t.drop 14).dropLast
    some ((splitCommas inner).map trimB)
  else
    none

/-- All reference tokens of a document's `_Requirements: ..._` footers, in
line order. -/
def extractRefTokens (content : List Char) : List (List Char) :=
  ((splitLines content).filterMap refFooterTokens).flatten

/-- Canonical requirement numbers: the whole-number identifiers of the
`### Requirement N` headings of the requirements document. -/
def extractReqNumbers (content : List Char) : List Nat :=
  (splitLines content).filterMap reqHeadingNum

/-- A referenced token stripped to its leading whole-number component (the
digits before the first dot). -/
def leadingWhole (tok : List Char) : Option Nat :=
  parseNatL (tok.takeWhile (fun c => c ≠ '.'))

/-- Modelled from the spec: the traceability algorithm — each referenced
token is stripped to its leading whole-number component and tested for
membership in the canonical set; non-members yield one "non-existent
requirement" error each; canonical numbers never whole-number-matched by any
token yield one per-requirement warning each (unless no references were
found at all, which yields the single "no requirements traceability found"
warning instead).  `uncovered` renders the per-requirement warning text
("not addressed" for design, "not covered by any task" for tasks). -/
def traceabilityResults (canonical : List Nat) (toks : List (List Char))
    (uncovered : Nat → String) : List ValidationResult :=
  let errs :=
    toks.filterMap (fun t =>
      match leadingWhole t with
      | some n =>
          if canonical.contains n then none
          else some (vErr ("References non-existent requirement " ++ String.mk t)
            "Traceability")
      | none =>
          some (vErr ("References non-existent requirement " ++ String.mk t)
            "Traceability"))
  let warns :=
    if toks = [] then
      [vWarn "No requirements traceability found" "Traceability"]
    else
      (canonical.filter (fun n => ¬ toks.any (fun t => leadingWhole t = some n))).map
        (fun n => vWarn (uncovered n) "Traceability")
  errs ++ warns

/-! ## Design document validation -/

/-- The design document's required sections. -/
def requiredDesignSections : List (List Char) :=
  ["Overview".data, "Architecture".data, "Components and Interfaces".data,
   "Data Models".data, "Error Handling".data, "Testing Strategy".data]

/-- The design validator's rule pipeline on a non-blank document: title and
required-section errors, plus the traceability cross-check when a companion
requirements document is supplied. -/
def designRules (content : List Char) (req : Option (List Char)) :
    List ValidationResult :=
  let lines := splitLines content
  let titleRes :=
    if lines.any (fun l => startsWithL "# ".data l) then []
    else [vErr "Document is missing a title" "Document"]
  let sectionRes :=
    (requiredDesignSections.filter
      (fun s => ¬ lines.any (fun l => trimB l = "## ".data ++ s))).map
      (fun s => vErr ("Document is missing required section: " ++ String.mk s) "Document")
  let traceRes :=
    match req with
    | none => []
    | some r =>
        traceabilityResults (extractReqNumbers r) (extractRefTokens content)
          (fun n => "Requirement " ++ toString n ++ " is not addressed in the design")
  titleRes ++ sectionRes ++ traceRes

/-- Modelled from the spec: `DesignValidator.validate(content, requirements)`
— a blank document fails with a `ValidationError`; otherwise the ordered
rule results. -/
def validateDesignDoc (content : String) (req : Option String) :
    Except ValidationError (List ValidationResult) :=
  if isBlank content.data then
    .error ⟨"design", "Document is empty"⟩
  else
    .ok (designRules content.data (req.map (·.data)))

/-! ## Tasks document validation -/

/-- Split a token at dots, for the `^\d+(\.\d+)*$` reference format check. -/
def splitOnDot : List Char → List (List Char)
  | [] => [[]]
  | c :: cs =>
      if c = '.' then [] :: splitOnDot cs
      else
        match splitOnDot cs with
        | [] => [[c]]
        | l :: ls => (c :: l) :: ls

/-- A task line: a checkbox item `- [ ]` or `- [x]` followed by a number. -/
def isTaskLine (ln : List Char) : Bool :=
  let t := trimL ln
  (startsWithL "- [ ] ".data t || startsWithL "- [x] ".data t) &&
    (match (t.drop 6).head? with
     | some c => isDigitCh c
     | none => false)

/-- The tasks validator's rule pipeline on a non-blank document: title,
at-least-one-task, requirement-reference token format, and the traceability
cross-check when a companion requirements document is supplied. -/
def tasksRules (content : List Char) (req : Option (List Char)) :
    List ValidationResult :=
  let lines := splitLines content
  let toks := extractRefTokens content
  let titleRes :=
    if lines.any (fun l => startsWithL "# ".data l) then []
    else [vErr "Document is missing a title" "Document"]
  let anyTaskRes :=
    if lines.any isTaskLine then []
    else [vErr "Document must contain at least one task" "Document"]
  let tokenFormatRes :=
    (toks.filter (fun t =>
      ¬ ((splitOnDot t).all (fun seg => seg ≠ [] && seg.all isDigitCh)))).map
      (fun t => vErr ("Invalid requirement reference format: " ++ String.mk t)
        "Traceability")
  let traceRes :=
    match req with
    | none => []
    | some r =>
        traceabilityResults (extractReqNumbers r) toks
          (fun n => "Requirement " ++ toString n ++ " is not covered by any task")
  titleRes ++ anyTaskRes ++ tokenFormatRes ++ traceRes

/-- Modelled from the spec: `TaskValidator.validate(content, requirements)` —
a blank document fails with a `ValidationError`; otherwise the ordered rule
results. -/
def validateTasksDoc (content : String) (req : Option String) :
    Except ValidationError (List ValidationResult) :=
  if isBlank content.data then
    .error ⟨"tasks", "Document is empty"⟩
  else
    .ok (tasksRules content.data (req.map (·.data)))

/-! ## Concrete states and documents used by the theorems below

These mirror the fixtures of the repository's test suite. -/

/-- A workflow whose Requirements phase is InProgress. -/
def wfReqInProgress : WorkflowState :=
  ⟨"test-feature", .requirements, .inProgress, .notStarted, .notStarted, false, true⟩

/-- A workflow whose Requirements phase is in Review. -/
def wfReqReview : WorkflowState :=
  ⟨"test-feature", .requirements, .review, .notStarted, .notStarted, false, true⟩

/-- The workflow right after the Requirements phase was approved. -/
def wfReqApproved : WorkflowState :=
  ⟨"test-feature", .design, .approved, .notStarted, .notStarted, true, false⟩

/-- A workflow whose final (Tasks) phase is in Review. -/
def wfTasksReview : WorkflowState :=
  ⟨"test-feature", .tasks, .approved, .approved, .review, false, true⟩

/-- A workflow with Requirements and Design approved (Tasks not started). -/
def wfBothApproved : WorkflowState :=
  ⟨"test-feature", .tasks, .approved, .approved, .notStarted, false, true⟩

/-- The backward-navigation fixture: current phase Design, Requirements
approved, Design in progress. -/
def wfNavStart : WorkflowState :=
  ⟨"test-feature", .design, .approved, .inProgress, .notStarted, false, true⟩

/-- The backward-navigation fixture after navigating back to Requirements:
Requirements InProgress, Design and Tasks reset to NotStarted. -/
def wfNavBacked : WorkflowState :=
  ⟨"test-feature", .requirements, .inProgress, .notStarted, .notStarted, false, true⟩

/-- The snapshot fixture workflow (Requirements in progress). -/
def wfSample : WorkflowState :=
  ⟨"test-feature", .requirements, .inProgress, .notStarted, .notStarted, false, false⟩

/-- The traceability test's requirements document: requirements 1 and 2. -/
def reqTraceFixture : String :=
  "# Requirements Document\n\n## Requirements\n\n### Requirement 1\n\n" ++
  "**User Story:** As a user, I want to authenticate.\n\n#### Acceptance Criteria\n\n" ++
  "1. WHEN user logs in THEN system SHALL authenticate\n\n### Requirement 2\n\n" ++
  "**User Story:** As a system, I want to manage sessions.\n\n#### Acceptance Criteria\n\n" ++
  "1. WHEN session expires THEN system SHALL prompt re-authentication\n"

/-- The traceability test's tasks document: footers referencing 1.1, 2.3,
1.2 and 3.1. -/
def tasksTraceFixture : String :=
  "# Implementation Plan\n\n- [ ] 1. Implement authentication\n" ++
  "  - Create login system\n  - _Requirements: 1.1, 2.3_\n\n" ++
  "- [ ] 2. Build interface\n  - Create forms\n  - _Requirements: 1.2, 3.1_\n"

/-- The tasks-side traceability results on the fixture pair. -/
def tasksTraceResults : List ValidationResult :=
  traceabilityResults (extractReqNumbers reqTraceFixture.data)
    (extractRefTokens tasksTraceFixture.data)
    (fun n => "Requirement " ++ toString n ++ " is not covered by any task")

/-! ## Helper lemmas -/

lemma wfInv_create (name : String) : WfInv (createWorkflow name) := by
  refine ⟨?_, ?_, ?_, ?_⟩ <;> simp [createWorkflow, anyActive, isActive]

lemma wfInv_start {w w' : WorkflowState} {p : PhaseType}
    (hInv : WfInv w) (h : startPhase w p = .ok w') : WfInv w' := by
  unfold startPhase at h
  split at h
  case isFalse => exact absurd h (by simp)
  case isTrue hc =>
    obtain ⟨hns, hgate⟩ := hc
    obtain ⟨h1, h2, _, h4⟩ := hInv
    injection h with h
    subst h
    cases p <;>
      simp_all [statusOf, setStatus, prevBefore, anyActive, isActive, WfInv]

lemma wfInv_complete {w w' : WorkflowState} {p : PhaseType}
    (hInv : WfInv w) (h : completePhase w p = .ok w') : WfInv w' := by
  unfold completePhase at h
  split at h
  case isFalse => exact absurd h (by simp)
  case isTrue hc =>
    obtain ⟨h1, h2, _, h4⟩ := hInv
    injection h with h
    subst h
    cases p <;>
      simp_all [statusOf, setStatus, anyActive, isActive, WfInv]

lemma wfInv_approve {w w' : WorkflowState} {p : PhaseType}
    (hInv : WfInv w) (h : approvePhase w p = .ok w') : WfInv w' := by
  unfold approvePhase at h
  split at h
  case isFalse => exact absurd h (by simp)
  case isTrue hc =>
    obtain ⟨h1, h2, _, h4⟩ := hInv
    split at h <;> injection h with h <;> subst h <;>
      cases p <;>
      simp_all [statusOf, setStatus, nextAfter, anyActive, isActive, WfInv]

lemma wfInv_of_reachable {w : WorkflowState} (h : Reachable w) : WfInv w := by
  induction h with
  | create name => exact wfInv_create name
  | start _ hs ih => exact wfInv_start ih hs
  | complete _ hs ih => exact wfInv_complete ih hs
  | approve _ hs ih => exact wfInv_approve ih hs

lemma lookupWf_updateWf_self (t : WfStore) (name : String) (w : WorkflowState) :
    lookupWf (updateWf t name w) name = some w := by
  induction t with
  | nil => simp [updateWf, lookupWf]
  | cons hd rest ih =>
      obtain ⟨k, v⟩ := hd
      by_cases hk : k = name <;> simp [updateWf, lookupWf, hk, ih]

/-! ## Claim theorems -/

/-- C1: for every workflow and every phase `P` in Review, `approve_phase(P)`
sets `P` Approved; for a non-last `P` it advances `current_phase` to the
next phase, leaves that next phase's status untouched (hence at NotStarted),
and sets `can_proceed := true`, `requires_approval := false`; for the last
phase (Tasks) it keeps `current_phase` and sets `can_proceed := false`,
`requires_approval := false`; when `P` is not in Review the call fails with
`InvalidTransition`. -/
theorem approve_phase_spec (w : WorkflowState) (p : PhaseType) :
    (statusOf w p ≠ .review → approvePhase w p = .error .invalidTransition) ∧
    (statusOf w p = .review → (approvePhase w p).isOk = true) ∧
    (∀ w', approvePhase w p = .ok w' →
      statusOf w' p = .approved ∧
      w'.requiresApproval = false ∧
      (p ≠ .tasks →
        w'.currentPhase = nextAfter p ∧
        statusOf w' (nextAfter p) = statusOf w (nextAfter p) ∧
        w'.canProceed = true) ∧
      (p = .tasks →
        w'.currentPhase = w.currentPhase ∧
        w'.canProceed = false)) := by
  refine ⟨?_, ?_, ?_⟩
  · intro h
    simp [approvePhase, h]
  · intro h
    cases p <;> simp [approvePhase, h, Except.isOk, Except.toBool]
  · intro w' h
    unfold approvePhase at h
    split at h
    case isFalse => exact absurd h (by simp)
    case isTrue hrev =>
      split at h <;> injection h with h <;> subst h <;>
        cases p <;>
        simp_all [statusOf, setStatus, nextAfter]

/-- Witness for C1: approving Requirements while it is in Review yields the
Approved state with `current_phase = Design`, Design still NotStarted,
`can_proceed` set and `requires_approval` cleared; approving the Tasks phase
in Review completes the workflow; approving a phase not in Review fails. -/
theorem approve_phase_spec_witness :
    statusOf wfReqApproved .requirements = .approved ∧
    wfReqApproved.currentPhase = .design ∧
    statusOf wfReqApproved .design = .notStarted ∧
    wfReqApproved.canProceed = true ∧
    wfReqApproved.requiresApproval = false ∧
    approvePhase wfReqReview .design = .error .invalidTransition ∧
    (approvePhase wfTasksReview .tasks).isOk = true := by
  have h := (approve_phase_spec wfReqReview .requirements).2.2 wfReqApproved (by rfl)
  have hne := h.2.2.1 (by decide)
  have hfail := (approve_phase_spec wfReqReview .design).1 (by decide)
  have htasks := (approve_phase_spec wfTasksReview .tasks).2.1 (by rfl)
  exact ⟨h.1, hne.1, hne.2.1.trans rfl, hne.2.2, h.2.1, hfail, htasks⟩

lemma reachable_wfReqInProgress : Reachable wfReqInProgress :=
  Reachable.start (p := .requirements) (Reachable.create "test-feature") (by rfl)

lemma reachable_wfReqReview : Reachable wfReqReview :=
  Reachable.complete (p := .requirements) reachable_wfReqInProgress (by rfl)

lemma reachable_wfReqApproved : Reachable wfReqApproved :=
  Reachable.approve (p := .requirements) reachable_wfReqReview (by rfl)

/-- C2 (amended): in every state reachable through the phase manager's
operations, `requires_approval` is true whenever some phase is InProgress or
Review, and it is false once the final (Tasks) phase is Approved; but it is
also false in the quiescent states immediately after a non-final approval,
so "false only once the final phase is Approved" does not hold. -/
theorem requires_approval_invariant {w : WorkflowState} (h : Reachable w) :
    (anyActive w = true → w.requiresApproval = true) ∧
    (w.tasksStatus = .approved → w.requiresApproval = false) := by
  obtain ⟨_, _, h3, h4⟩ := wfInv_of_reachable h
  refine ⟨?_, h4⟩
  intro ha
  by_contra hr
  rw [Bool.not_eq_true] at hr
  rw [h3 hr] at ha
  exact Bool.false_ne_true ha

/-- Witness for C2 (amended): the reachable state with Requirements in
Review has an active phase and indeed requires approval. -/
theorem requires_approval_invariant_witness :
    anyActive wfReqReview = true ∧ wfReqReview.requiresApproval = true :=
  ⟨by decide, (requires_approval_invariant reachable_wfReqReview).1 (by decide)⟩

/-- Counterexample to C2 as stated: the state reached by create → start →
complete → approve of the Requirements phase is reachable, its Tasks phase
is not Approved, yet `requires_approval` is false — refuting
"`requires_approval` is false only once the final phase is Approved". -/
theorem requires_approval_claim_counterexample :
    Reachable wfReqApproved ∧
    wfReqApproved.tasksStatus ≠ .approved ∧
    wfReqApproved.requiresApproval = false :=
  ⟨reachable_wfReqApproved, by decide, rfl⟩

/-- C6: for every tracked workflow, `can_transition_to` allows Requirements
unconditionally, allows Design exactly when Requirements is Approved, and
allows Tasks exactly when both Requirements and Design are Approved. -/
theorem can_transition_spec (t : WfStore) (name : String) (w : WorkflowState)
    (h : lookupWf t name = some w) :
    canTransitionToPhase t name .requirements = true ∧
    (canTransitionToPhase t name .design = true ↔ w.reqStatus = .approved) ∧
    (canTransitionToPhase t name .tasks = true ↔
      (w.reqStatus = .approved ∧ w.designStatus = .approved)) := by
  simp [canTransitionToPhase, h, canTransitionTo, statusOf]

/-- Witness for C6: in a store holding one workflow with Requirements and
Design approved, every transition target is allowed. -/
theorem can_transition_spec_witness :
    canTransitionToPhase [("test-feature", wfBothApproved)] "test-feature"
      .requirements = true ∧
    canTransitionToPhase [("test-feature", wfBothApproved)] "test-feature"
      .design = true ∧
    canTransitionToPhase [("test-feature", wfBothApproved)] "test-feature"
      .tasks = true := by
  have h := can_transition_spec [("test-feature", wfBothApproved)] "test-feature"
    wfBothApproved (by rfl)
  exact ⟨h.1, h.2.1.mpr (by rfl), h.2.2.mpr (by exact ⟨rfl, rfl⟩)⟩

/-- C10: for a feature with no tracked workflow, the read-only queries return
neutral values instead of failing — `get_workflow` and `get_current_phase`
give `none`, the completion percentage is `0`, and the three boolean queries
give `false`. -/
theorem untracked_queries_spec (t : WfStore) (name : String)
    (h : lookupWf t name = none) :
    getWorkflow t name = none ∧
    getCurrentPhase t name = none ∧
    getCompletionPercentage t name = 0 ∧
    isWorkflowComplete t name = false ∧
    requiresUserApproval t name = false ∧
    canProceedToNextPhase t name = false := by
  simp [getWorkflow, getCurrentPhase, getCompletionPercentage, isWorkflowComplete,
    requiresUserApproval, canProceedToNextPhase, h]

/-- Witness for C10: the queries on an empty store and the feature name
"nonexistent". -/
theorem untracked_queries_spec_witness :
    getWorkflow [] "nonexistent" = none ∧
    getCurrentPhase [] "nonexistent" = none ∧
    getCompletionPercentage [] "nonexistent" = 0 ∧
    isWorkflowComplete [] "nonexistent" = false ∧
    requiresUserApproval [] "nonexistent" = false ∧
    canProceedToNextPhase [] "nonexistent" = false :=
  untracked_queries_spec [] "nonexistent" (by rfl)

lemma applyNavBack_spec (w : WorkflowState) (target : PhaseType) :
    (applyNavBack w target).currentPhase = target ∧
    statusOf (applyNavBack w target) target = .inProgress ∧
    (∀ q, phaseIdx target < phaseIdx q →
      statusOf (applyNavBack w target) q = .notStarted) ∧
    (∀ q, phaseIdx q < phaseIdx target →
      statusOf (applyNavBack w target) q = statusOf w q) := by
  refine ⟨?_, ?_, ?_, ?_⟩ <;>
    cases target <;>
    first
    | rfl
    | (intro q hq
       cases q <;> simp_all [applyNavBack, setStatus, statusOf, phaseIdx])

/-- C3: for a tracked workflow, `navigate_backward` succeeds for target
Requirements from any current phase, succeeds for target Design exactly when
the current phase is Tasks (hence fails from Requirements), and fails for an
untracked feature; on success the stored workflow has the target as current
phase with status InProgress, every phase strictly after the target reset to
NotStarted, and every phase strictly before the target unchanged. -/
theorem navigate_backward_spec (t : WfStore) (name : String) :
    (lookupWf t name = none →
      ∀ target, (navigateBackward t name target).1 = false) ∧
    (∀ w, lookupWf t name = some w →
      (navigateBackward t name .requirements).1 = true ∧
      ((navigateBackward t name .design).1 = true ↔ w.currentPhase = .tasks) ∧
      (∀ target, (navigateBackward t name target).1 = true →
        ∀ w', lookupWf (navigateBackward t name target).2 name = some w' →
          w'.currentPhase = target ∧
          statusOf w' target = .inProgress ∧
          (∀ q, phaseIdx target < phaseIdx q → statusOf w' q = .notStarted) ∧
          (∀ q, phaseIdx q < phaseIdx target → statusOf w' q = statusOf w q))) := by
  constructor
  · intro hnone target
    simp [navigateBackward, hnone]
  · intro w hw
    refine ⟨?_, ?_, ?_⟩
    · simp [navigateBackward, hw, canNavBack]
    · simp [navigateBackward, hw, canNavBack]
      constructor
      · intro hif
        by_contra hne
        rw [if_neg (by simpa using hne)] at hif
        exact Bool.false_ne_true hif
      · intro hcur
        rw [if_pos (by simpa using hcur)]
    · intro target hsucc w' hw'
      have hred : navigateBackward t name target =
          if canNavBack w target = true then
            (true, updateWf t name (applyNavBack w target))
          else (false, t) := by
        simp [navigateBackward, hw]
      rw [hred] at hsucc hw'
      by_cases hnav : canNavBack w target = true
      · rw [if_pos hnav] at hw'
        simp only at hw'
        rw [lookupWf_updateWf_self] at hw'
        injection hw' with hw'
        subst hw'
        exact applyNavBack_spec w target
      · rw [if_neg hnav] at hsucc
        exact absurd hsucc (by simp)

lemma toNat_ofNat_valid (n : Nat) (h : n.isValidChar) : (Char.ofNat n).toNat = n := by
  simp only [Char.ofNat, h, dif_pos, Char.ofNatAux, Char.toNat]
  rfl

lemma lcChar_toNat (c : Char) (h : 65 ≤ c.toNat ∧ c.toNat ≤ 90) :
    (lcChar c).toNat = c.toNat + 32 := by
  have hv : (c.toNat + 32).isValidChar := Or.inl (by omega)
  simp [lcChar, h, toNat_ofNat_valid _ hv]

lemma lcChar_idem (c : Char) : lcChar (lcChar c) = lcChar c := by
  by_cases h : 65 ≤ c.toNat ∧ c.toNat ≤ 90
  · have ht := lcChar_toNat c h
    generalize lcChar c = x at ht ⊢
    unfold lcChar
    rw [if_neg (by omega)]
  · unfold lcChar
    rw [if_neg h, if_neg h]

lemma isWs_lcChar (c : Char) : isWs (lcChar c) = isWs c := by
  by_cases h : 65 ≤ c.toNat ∧ c.toNat ≤ 90
  · have ht := lcChar_toNat c h
    have hl : isWs (lcChar c) = false := by
      simp only [isWs, ht, Bool.or_eq_false_iff, decide_eq_false_iff_not]
      omega
    have hr : isWs c = false := by
      simp only [isWs, Bool.or_eq_false_iff, decide_eq_false_iff_not]
      omega
    rw [hl, hr]
  · unfold lcChar
    rw [if_neg h]

lemma lcStr_idem (l : List Char) : lcStr (lcStr l) = lcStr l := by
  simp only [lcStr, List.map_map]
  exact List.map_congr_left (fun c _ => lcChar_idem c)

lemma trimL_lcStr (l : List Char) : trimL (lcStr l) = lcStr (trimL l) := by
  have hf : isWs ∘ lcChar = isWs := funext isWs_lcChar
  simp only [trimL, lcStr, List.dropWhile_map, hf]

lemma hasShall_lcStr (c : List Char) : hasShall (lcStr c) = hasShall c := by
  simp only [hasShall, lcStr_idem]

lemma hasEarsKeyword_lcStr (c : List Char) :
    hasEarsKeyword (lcStr c) = hasEarsKeyword c := by
  simp only [hasEarsKeyword, trimL_lcStr, lcStr_idem]

/-- C5: EARS matching of an acceptance criterion is case-insensitive (the
verdict on a criterion equals the verdict on its lower-casing); a criterion
with a recognised leading keyword but no SHALL yields exactly the one
"missing SHALL" error; a criterion with no recognised leading keyword yields
exactly the one "does not follow EARS format" error; and a criterion with a
keyword and a SHALL yields no EARS error at all, so AND/OR/NOT inside the
trigger clause cannot invalidate a match. -/
theorem ears_criterion_spec (c : List Char) :
    (hasEarsKeyword c = true → hasShall c = false →
      earsResults c =
        [vErr ("Acceptance criterion is missing \"SHALL\": " ++ String.mk c)
          "Acceptance Criteria"]) ∧
    (hasEarsKeyword c = false →
      earsResults c =
        [vErr ("Acceptance criterion does not follow EARS format: " ++ String.mk c)
          "Acceptance Criteria"]) ∧
    (hasEarsKeyword c = true → hasShall c = true → earsResults c = []) ∧
    earsVerdict (lcStr c) = earsVerdict c := by
  refine ⟨?_, ?_, ?_, ?_⟩
  · intro hk hs
    simp [earsResults, earsVerdict, hk, hs]
  · intro hk
    simp [earsResults, earsVerdict, hk]
  · intro hk hs
    simp [earsResults, earsVerdict, hk, hs]
  · simp only [earsVerdict, hasEarsKeyword_lcStr, hasShall_lcStr]

/-- Witness for C5: the criterion "WHEN user clicks button THEN system
responds" yields exactly one "missing SHALL" error; "The system should be
fast" yields exactly one "does not follow EARS format" error; the AND- and
NOT-carrying criteria and the all-lowercase criterion of the tests are
accepted. -/
theorem ears_criterion_spec_witness :
    countErrors (earsResults "WHEN user clicks button THEN system responds".data) = 1 ∧
    earsResults "WHEN user clicks button THEN system responds".data =
      [vErr ("Acceptance criterion is missing \"SHALL\": " ++
        "WHEN user clicks button THEN system responds") "Acceptance Criteria"] ∧
    countErrors (earsResults "The system should be fast".data) = 1 ∧
    earsResults "when user clicks button then system shall respond".data = [] ∧
    earsResults "WHEN user submits AND data is valid THEN system SHALL save record".data
      = [] ∧
    earsResults "IF user is NOT authenticated THEN system SHALL deny access".data = [] := by
  have h1 := (ears_criterion_spec "WHEN user clicks button THEN system responds".data).1
    (by decide) (by decide)
  have h2 := (ears_criterion_spec "The system should be fast".data).2.1 (by decide)
  have h3 := (ears_criterion_spec
    "when user clicks button then system shall respond".data).2.2.1
    (by decide) (by decide)
  have h4 := (ears_criterion_spec
    "WHEN user submits AND data is valid THEN system SHALL save record".data).2.2.1
    (by decide) (by decide)
  have h5 := (ears_criterion_spec
    "IF user is NOT authenticated THEN system SHALL deny access".data).2.2.1
    (by decide) (by decide)
  refine ⟨?_, ?_, ?_, h3, h4, h5⟩
  · rw [h1]; rfl
  · rw [h1]
  · rw [h2]; rfl

/-- C7: for each document kind, `validate` fails (with the `ValidationError`
for an empty document) exactly when the input is blank; every non-blank
input, however malformed, produces an ordered result list. -/
theorem validators_raise_iff_blank (content : String) (req : Option String) :
    ((validateRequirementsDoc content).isOk = !(isBlank content.data)) ∧
    ((validateDesignDoc content req).isOk = !(isBlank content.data)) ∧
    ((validateTasksDoc content req).isOk = !(isBlank content.data)) := by
  unfold validateRequirementsDoc validateDesignDoc validateTasksDoc
  by_cases h : isBlank content.data = true <;>
    simp [h, Except.isOk, Except.toBool]

/-- Witness for C3: from the fixture workflow (current phase Design,
Requirements approved, Design in progress), navigating back to Requirements
succeeds, resets Design and Tasks to NotStarted and puts Requirements
InProgress; navigating to Design from current phase Design fails. -/
theorem navigate_backward_spec_witness :
    (navigateBackward [("test-feature", wfNavStart)] "test-feature"
      .requirements).1 = true ∧
    (navigateBackward [("test-feature", wfNavStart)] "test-feature"
      .design).1 = false ∧
    (navigateBackward [] "test-feature" .requirements).1 = false ∧
    statusOf wfNavBacked .requirements = .inProgress ∧
    statusOf wfNavBacked .design = .notStarted ∧
    statusOf wfNavBacked .tasks = .notStarted ∧
    wfNavBacked.currentPhase = .requirements := by
  have h := (navigate_backward_spec [("test-feature", wfNavStart)] "test-feature").2
    wfNavStart (by rfl)
  have hsucc := h.1
  have hpost := h.2.2 .requirements hsucc wfNavBacked (by rfl)
  have hnone := (navigate_backward_spec [] "test-feature").1 (by rfl) .design
  refine ⟨hsucc, ?_, (navigate_backward_spec [] "test-feature").1 (by rfl) .requirements,
    hpost.2.1, hpost.2.2.1 .design (by decide), hpost.2.2.1 .tasks (by decide), hpost.1⟩
  have hiff := h.2.1
  by_contra hdes
  rw [Bool.not_eq_false] at hdes
  have := hiff.mp hdes
  exact absurd this (by decide)

lemma lookupSnaps_updateSnaps_self (m : List (String × List StateSnapshot))
    (name : String) (l : List StateSnapshot) :
    lookupSnaps (updateSnaps m name l) name = l := by
  induction m with
  | nil => simp [updateSnaps, lookupSnaps]
  | cons hd rest ih =>
      obtain ⟨k, v⟩ := hd
      by_cases hk : k = name <;> simp [updateSnaps, lookupSnaps, hk, ih]

lemma length_takeLast (k : Nat) (l : List StateSnapshot) :
    (takeLast k l).length = min l.length k := by
  simp [takeLast]
  omega

lemma takeLast_append_one (k : Nat) (L : List StateSnapshot) (s : StateSnapshot) :
    takeLast k (takeLast k L ++ [s]) = takeLast k (L ++ [s]) := by
  unfold takeLast
  rw [List.drop_append_eq_append_drop, List.drop_append_eq_append_drop, List.drop_drop]
  congr 1
  · congr 1
    simp [List.length_append, List.length_drop]
    omega
  · congr 1
    simp [List.length_append, List.length_drop]
    omega

lemma iterCreate_closed (w : WorkflowState) (n : Nat) :
    memSnaps (iterCreate w n) w.featureName =
      takeLast 10 ((List.range n).map (fun i => mkSnapshot w i i)) ∧
    diskSnaps (iterCreate w n) w.featureName =
      (List.range n).map (fun i => mkSnapshot w i i) ∧
    (iterCreate w n).clock = n := by
  induction n with
  | zero => exact ⟨rfl, rfl, rfl⟩
  | succ n ih =>
      obtain ⟨ihm, ihd, ihc⟩ := ih
      have hrange : (List.range (n + 1)).map (fun i => mkSnapshot w i i) =
          (List.range n).map (fun i => mkSnapshot w i i) ++ [mkSnapshot w n n] := by
        rw [List.range_succ, List.map_append]
        rfl
      refine ⟨?_, ?_, ?_⟩
      · show lookupSnaps (updateSnaps (iterCreate w n).snaps w.featureName _)
          w.featureName = _
        rw [lookupSnaps_updateSnaps_self]
        show takeLast 10 (memSnaps (iterCreate w n) w.featureName ++
          [mkSnapshot w n (iterCreate w n).clock]) = _
        rw [ihm, ihc, hrange, takeLast_append_one]
      · show lookupSnaps (updateSnaps (iterCreate w n).disk w.featureName _)
          w.featureName = _
        rw [lookupSnaps_updateSnaps_self]
        show diskSnaps (iterCreate w n) w.featureName ++
          [mkSnapshot w n (iterCreate w n).clock] = _
        rw [ihd, ihc, hrange]
      · show (iterCreate w n).clock + 1 = n + 1
        rw [ihc]

/-- C8: after `N` calls to `create_state_snapshot` for one feature, the
in-memory list holds `min N 10` snapshots — exactly the `N - 10`-th through
`(N-1)`-th ones by metadata marker, so 15 calls leave the snapshots of
iterations 5 through 14 — while the durable per-feature directory has
received one record per call, independent of in-memory eviction. -/
theorem snapshot_bounding_spec (w : WorkflowState) (n : Nat) :
    (memSnaps (iterCreate w n) w.featureName).length = min n 10 ∧
    (memSnaps (iterCreate w n) w.featureName).map (·.metadata) =
      (List.range n).drop (n - 10) ∧
    (diskSnaps (iterCreate w n) w.featureName).length = n ∧
    (memSnaps (iterCreate w 15) w.featureName).map (·.metadata) =
      [5, 6, 7, 8, 9, 10, 11, 12, 13, 14] := by
  have hmeta : ∀ m : Nat,
      ((List.range m).map (fun i => mkSnapshot w i i)).map (·.metadata) =
        List.range m := by
    intro m
    rw [List.map_map]
    have hcomp : ((fun s : StateSnapshot => s.metadata) ∘ fun i => mkSnapshot w i i) =
        id := funext (fun i => rfl)
    rw [hcomp, List.map_id]
  have hgen : ∀ m : Nat,
      (memSnaps (iterCreate w m) w.featureName).map (·.metadata) =
        (List.range m).drop (m - 10) := by
    intro m
    rw [(iterCreate_closed w m).1]
    unfold takeLast
    rw [List.map_drop, hmeta]
    congr 1
    simp
  refine ⟨?_, hgen n, ?_, ?_⟩
  · rw [(iterCreate_closed w n).1, length_takeLast]
    simp
  · rw [(iterCreate_closed w n).2.1]
    simp
  · rw [hgen 15]
    rfl

/-- C9: `rollback_to_snapshot` uses Python-style indexing into the feature's
in-memory snapshot list — an empty history fails with the no-snapshots
`StateError` for every index; `-1` returns the most recently created
snapshot; any index outside `[-length, length)` fails with the
invalid-index `StateError`; a negative in-range index selects like its
`length`-shifted positive counterpart, and a non-negative in-range index `i`
returns element `i`.  The operation returns the snapshot only and leaves the
manager and the live workflow untouched. -/
theorem rollback_spec (m : RecoveryManager) (name : String) :
    (memSnaps m name = [] →
      ∀ i : Int, rollbackToSnapshot m name i = .error .noSnapshots) ∧
    (∀ h : memSnaps m name ≠ [],
      rollbackToSnapshot m name (-1) = .ok ((memSnaps m name).getLast h)) ∧
    (memSnaps m name ≠ [] → ∀ i : Int,
      (i < -((memSnaps m name).length : Int) ∨
        ((memSnaps m name).length : Int) ≤ i) →
      rollbackToSnapshot m name i = .error .invalidIndex) ∧
    (∀ i : Int, -((memSnaps m name).length : Int) ≤ i → i < 0 →
      rollbackToSnapshot m name i =
        rollbackToSnapshot m name (i + (memSnaps m name).length)) ∧
    (∀ i : Int, 0 ≤ i → i < ((memSnaps m name).length : Int) →
      (memSnaps m name).get? i.toNat = (rollbackToSnapshot m name i).toOption) := by
  have hred : ∀ idx : Int, memSnaps m name ≠ [] →
      rollbackToSnapshot m name idx =
        (if (if idx < 0 then idx + (memSnaps m name).length else idx) < 0 then
          .error .invalidIndex
        else
          match (memSnaps m name).get?
              (if idx < 0 then idx + (memSnaps m name).length else idx).toNat with
          | some s => .ok s
          | none => .error .invalidIndex) := by
    intro idx h
    unfold rollbackToSnapshot
    rw [if_neg (by simp [List.isEmpty_iff, h])]
  refine ⟨?_, ?_, ?_, ?_, ?_⟩
  · intro hemp i
    unfold rollbackToSnapshot
    rw [if_pos (List.isEmpty_iff.mpr hemp)]
  · intro h
    have hlen : 0 < (memSnaps m name).length := List.length_pos.mpr h
    rw [hred (-1) h]
    have hc1 : (-1 : Int) < 0 := by omega
    have hc2 : ¬ ((-1 : Int) + (memSnaps m name).length < 0) := by omega
    have htn : ((-1 : Int) + (memSnaps m name).length).toNat =
        (memSnaps m name).length - 1 := by omega
    have hget : (memSnaps m name).get? ((memSnaps m name).length - 1) =
        some ((memSnaps m name).getLast h) := by
      rw [List.getLast_eq_getElem, List.get?_eq_getElem?]
      exact List.getElem?_eq_getElem _
    simp only [if_pos hc1, if_neg hc2]
    rw [htn, hget]
  · intro h i hout
    have hlen : 0 < (memSnaps m name).length := List.length_pos.mpr h
    rw [hred i h]
    rcases hout with hlt | hge
    · have hc1 : i < 0 := by omega
      have hc2 : i + ((memSnaps m name).length : Int) < 0 := by omega
      simp only [if_pos hc1, if_pos hc2]
    · have hc1 : ¬ i < 0 := by omega
      have hnone : (memSnaps m name).get? i.toNat = none := by
        rw [List.get?_eq_getElem?]
        exact List.getElem?_eq_none (by omega)
      simp only [if_neg hc1]
      rw [hnone]
  · intro i h1 h2
    by_cases hemp : memSnaps m name = []
    · unfold rollbackToSnapshot
      rw [if_pos (List.isEmpty_iff.mpr hemp), if_pos (List.isEmpty_iff.mpr hemp)]
    · rw [hred i hemp, hred (i + (memSnaps m name).length) hemp]
      have hc1 : i < 0 := h2
      have hc2 : ¬ (i + ((memSnaps m name).length : Int) < 0) := by omega
      simp only [if_pos hc1, if_neg hc2]
  · intro i h1 h2
    have hne : memSnaps m name ≠ [] := by
      intro hemp
      rw [hemp] at h2
      simp at h2
      omega
    rw [hred i hne]
    have hc1 : ¬ i < 0 := by omega
    have hlt : i.toNat < (memSnaps m name).length := by omega
    have hget : (memSnaps m name).get? i.toNat =
        some ((memSnaps m name).get ⟨i.toNat, hlt⟩) := by
      rw [List.get?_eq_getElem?, List.get_eq_getElem]
      exact List.getElem?_eq_getElem _
    simp only [if_neg hc1]
    rw [hget]
    rfl

/-- Witness for C9: after three snapshot creations, index `-1` returns the
third snapshot (metadata 2) and index `-2` the second, index `-5` is
rejected as out of range, and rollback on a feature without snapshots fails
with the no-snapshots error. -/
theorem rollback_spec_witness :
    rollbackToSnapshot (iterCreate wfSample 3) "test-feature" (-1) =
      .ok (mkSnapshot wfSample 2 2) ∧
    rollbackToSnapshot (iterCreate wfSample 3) "test-feature" (-2) =
      .ok (mkSnapshot wfSample 1 1) ∧
    rollbackToSnapshot (iterCreate wfSample 3) "test-feature" (-5) =
      .error .invalidIndex ∧
    rollbackToSnapshot RecoveryManager.empty "nonexistent-feature" (-1) =
      .error .noSnapshots := by
  have h := rollback_spec (iterCreate wfSample 3) "test-feature"
  have h0 := rollback_spec RecoveryManager.empty "nonexistent-feature"
  refine ⟨?_, by rfl, ?_, h0.1 (by rfl) (-1)⟩
  · rw [h.2.1 (by decide)]
    rfl
  · exact h.2.2.1 (by decide) (-5) (by decide)

/-- C4 evaluated at the failing input: on the traceability tests' own
fixture pair — requirements 1 and 2, task footers referencing 1.1, 2.3, 1.2
and 3.1 — the spec's leading-whole-number algorithm produces exactly one
"non-existent requirement" error (for 3.1 only) and zero "not covered"
warnings, because 1.1, 2.3 and 1.2 whole-number-match requirements 1 and 2
and both canonical numbers are whole-number-covered; in particular the token
2.3 is accepted because requirement 2 exists.  The repository's tests assert
at least two such errors and at least one such warning on this very input,
so they contradict the spec'd algorithm. -/
theorem traceability_fixture_eval :
    extractReqNumbers reqTraceFixture.data = [1, 2] ∧
    (extractRefTokens tasksTraceFixture.data).map String.mk =
      ["1.1", "2.3", "1.2", "3.1"] ∧
    tasksTraceResults =
      [vErr "References non-existent requirement 3.1" "Traceability"] ∧
    countErrors tasksTraceResults = 1 ∧
    countWarnings tasksTraceResults = 0 ∧
    countErrors (traceabilityResults [1, 2] ["2.3".data] (fun n => toString n)) = 0 := by
  refine ⟨by rfl, by rfl, by rfl, by rfl, by rfl, by rfl⟩

end SpecDriven
